import Mathlib

/-
Verification of the observability-copilot detection and plan-generation core.

The Go sources are shallowly embedded as executable Lean definitions:
  * pkg/generator (generator.go, go_generator.go, python_generator.go, the
    Java generator) becomes pure plan-building functions;
  * pkg/github/pr.go's edit-application loop becomes a fold over an explicit
    file-system model (an association list of repo-relative path/content
    pairs, with POSIX create/append error behaviour made explicit);
  * pkg/scanner (scanner.go, go_detector.go, the Python analyzer) becomes a
    scan function over the same file-system model.  The per-file Go AST
    classification done with go/parser is the single part that cannot be
    translated; it enters as an opaque per-file-content parameter, while the
    walk, the aggregation and the candidate construction are translated
    literally.  grep -ril is modelled by its observable effect: a file is
    listed when some line matches; the basic-regex pre-filter is subsumed by
    the literal per-line re-check the Go code performs afterwards.
  * cmd/server/main.go's GenerateToggleSpecYAML and togglespec.GenerateToggleSpec
    become pure template renderers.
Go byte strings are modelled as Lean strings (all patterns involved are ASCII).
-/

/-- Bool test for list containment of a contiguous sublist. -/
def segInB (t : List Char) : List Char → Bool
  | [] => t.isEmpty
  | c :: rest => t.isPrefixOf (c :: rest) || segInB t rest

/-- Go strings.Contains. -/
def strContains (s t : String) : Bool := segInB t.data s.data

/-- Go strings.HasPrefix. -/
def strHasPref (s p : String) : Bool := p.data.isPrefixOf s.data

/-- Go strings.HasSuffix. -/
def strHasSuf (s t : String) : Bool := t.data.isSuffixOf s.data

/-- Go strings.TrimPrefix. -/
def trimPrefixStr (s p : String) : String :=
  if p.data.isPrefixOf s.data then ⟨s.data.drop p.data.length⟩ else s

/-- Replacement of every occurrence of a non-empty pattern, driven by a fuel
argument at least the input length so the recursion is structural and the
kernel can evaluate it; models Go strings.ReplaceAll. -/
def replaceAllFuel (old new : List Char) : Nat -> List Char -> List Char
  | _, [] => []
  | 0, s => s
  | fuel + 1, c :: rest =>
    if old.isPrefixOf (c :: rest) && !old.isEmpty then
      new ++ replaceAllFuel old new fuel (List.drop (old.length - 1) rest)
    else c :: replaceAllFuel old new fuel rest

/-- Go strings.ReplaceAll. -/
def strReplaceAll (s old new : String) : String :=
  String.mk (replaceAllFuel old.data new.data s.data.length s.data)

/-- Split of a char list at every occurrence of a separator character;
models Go strings.Split / String.splitOn for the one-character separators
this code base splits on. -/
def splitOnCharL (sep : Char) : List Char -> List (List Char)
  | [] => [[]]
  | c :: rest =>
    match splitOnCharL sep rest with
    | [] => if c == sep then [[], []] else [[c]]
    | h :: t => if c == sep then [] :: h :: t else (c :: h) :: t

/-- String-level split on a one-character separator. -/
def strSplitChar (s : String) (sep : Char) : List String :=
  (splitOnCharL sep s.data).map String.mk

/-- ASCII whitespace (the characters strings.TrimSpace strips in this code base). -/
def isSpaceChar (c : Char) : Bool :=
  c == ' ' || c == '\t' || c == '\n' || c == '\r'

/-- Go strings.TrimSpace (ASCII fragment). -/
def strTrim (s : String) : String :=
  String.mk (((s.data.dropWhile isSpaceChar).reverse.dropWhile isSpaceChar).reverse)

/-- Go strings.ToLower (ASCII fragment). -/
def lowerStr (s : String) : String := String.mk (s.data.map Char.toLower)

/-- Final slash-separated element of a path (filepath.Base for our uses). -/
def baseName (p : String) : String := (strSplitChar p '/').getLastD p

/-- filepath.Ext: suffix of the final element starting at its last dot. -/
def extOf (p : String) : String :=
  let parts := strSplitChar (baseName p) '.'
  if parts.length ≤ 1 then "" else "." ++ parts.getLastD ""

/-- Directory components of a repo-relative path (everything but the base). -/
def dirParts (p : String) : List String := (strSplitChar p '/').dropLast

/-- Deduplicate keeping first occurrences; models extraction from a Go set map. -/
def dedupKeep : List String → List String
  | [] => []
  | x :: rest => if x ∈ rest then dedupKeep rest else x :: dedupKeep rest

/-- A materialized checkout: repo-relative file paths with their contents. -/
structure RepoFS where
  files : List (String × String)
deriving DecidableEq, Repr

/-- generator.FileChange (LineAfter is the anchor; Go zero value ""). -/
structure FileChange where
  Path : String
  Content : String
  Action : String
  LineAfter : String := ""
deriving DecidableEq, Repr

/-- generator.InstrumentationPlan. -/
structure InstrumentationPlan where
  RepoID : String := ""
  Framework : String
  Service : String
  Mode : String
  Changes : List FileChange := []
  Description : String
deriving DecidableEq, Repr

/-- scanner.Candidate. -/
structure Candidate where
  Language : String
  Framework : String
  Kind : String
  Patterns : List String
  Files : List String
  ServiceName : String
deriving DecidableEq, Repr

/-- scanner.FrameworkDetection. -/
structure FrameworkDetection where
  Language : String
  Framework : String
  HasMetrics : Bool
  HasOTel : Bool
  ServiceName : String
deriving DecidableEq, Repr

/-- scanner.ScanResult. -/
structure ScanResult where
  Frameworks : List FrameworkDetection
  Services : List String
  Candidates : List Candidate
deriving DecidableEq, Repr

/-- go.mod dependency block appended by the Go generator (go_generator.go). -/
def goModRequireContent : String :=
  "\nrequire (\n    go.opentelemetry.io/otel v1.21.0\n    go.opentelemetry.io/otel/sdk v1.21.0\n    go.opentelemetry.io/otel/exporters/otlp/otlptrace/otlptracegrpc v1.21.0\n    go.opentelemetry.io/contrib/instrumentation/github.com/gin-gonic/gin/otelgin v0.46.1\n)"

/-- go_generator.go generateMetricsFileContent. -/
def generateMetricsFileContent (service : String) : String :=
  let svc := strReplaceAll service "-" "_"
  "package metrics\n\nimport (\n    \"github.com/prometheus/client_golang/prometheus\"\n)\n\nvar (\n    HttpRequestsTotal = prometheus.NewCounterVec(\n        prometheus.CounterOpts\x7b\n            Name: \"" ++ svc ++ "_http_requests_total\",\n            Help: \"Total number of HTTP requests\",\n        \x7d,\n        []string\x7b\"method\", \"endpoint\", \"status\"\x7d,\n    )\n\n    HttpRequestDuration = prometheus.NewHistogramVec(\n        prometheus.HistogramOpts\x7b\n            Name:    \"" ++ svc ++ "_http_request_duration_seconds\",\n            Help:    \"HTTP request duration in seconds\",\n            Buckets: prometheus.DefBuckets,\n        \x7d,\n        []string\x7b\"method\", \"endpoint\"\x7d,\n    )\n)\n\nfunc init() \x7b\n    prometheus.MustRegister(HttpRequestsTotal)\n    prometheus.MustRegister(HttpRequestDuration)\n\x7d\n"

/-- promhttp import snippet of go_generator.go. -/
def goImportSnippet : String :=
  "\n\t\"github.com/prometheus/client_golang/prometheus/promhttp\"\n"

/-- metrics-endpoint router snippet of go_generator.go. -/
def goRouterSnippet : String :=
  "\n// Expose Prometheus metrics endpoint\nrouter.GET(\"/metrics\", gin.WrapH(promhttp.Handler()))\n"

/-- go_generator.go generateGoTracerInit. -/
def generateGoTracerInit (service : String) : FileChange :=
  { Path := "main.go"
    Action := "append"
    Content := "\nimport (\n    \"context\"\n    \"log\"\n    \"go.opentelemetry.io/otel\"\n    \"go.opentelemetry.io/otel/exporters/otlp/otlptrace/otlptracegrpc\"\n    \"go.opentelemetry.io/otel/sdk/resource\"\n    sdktrace \"go.opentelemetry.io/otel/sdk/trace\"\n    semconv \"go.opentelemetry.io/otel/semconv/v1.21.0\"\n)\n\n// initTracer initializes the OpenTelemetry tracer\nfunc initTracer() (*sdktrace.TracerProvider, error) \x7b\n    ctx := context.Background()\n    \n    // Create OTLP exporter\n    exporter, err := otlptracegrpc.New(ctx,\n        otlptracegrpc.WithEndpoint(\"otel-collector.observability.svc.cluster.local:4317\"),\n        otlptracegrpc.WithInsecure(),\n    )\n    if err != nil \x7b\n        return nil, err\n    \x7d\n\n    // Create tracer provider\n    tp := sdktrace.NewTracerProvider(\n        sdktrace.WithBatcher(exporter),\n        sdktrace.WithResource(resource.NewWithAttributes(\n            semconv.SchemaURL,\n            semconv.ServiceNameKey.String(\"" ++ service ++ "\"),\n        )),\n    )\n\n    otel.SetTracerProvider(tp)\n    log.Println(\"âœ… OpenTelemetry tracer initialized\")\n    return tp, nil\n\x7d"
    LineAfter := "import (" }

/-- go_generator.go generateGoMiddleware. -/
def generateGoMiddleware (service : String) : FileChange :=
  { Path := "main.go"
    Action := "modify"
    Content := "\nimport \"go.opentelemetry.io/contrib/instrumentation/github.com/gin-gonic/gin/otelgin\"\n\n// Add to main() function after router creation:\n// Initialize tracer\ntp, err := initTracer()\nif err != nil \x7b\n    log.Fatalf(\"Failed to initialize tracer: %v\", err)\n\x7d\ndefer func() \x7b\n    if err := tp.Shutdown(context.Background()); err != nil \x7b\n        log.Printf(\"Error shutting down tracer: %v\", err)\n    \x7d\n\x7d()\n\n// Add OTel middleware to Gin router\nrouter.Use(otelgin.Middleware(\"" ++ service ++ "\"))\n"
    LineAfter := "router := gin.Default()" }

/-- Entry-point selection of go_generator.go: first metrics candidate's first file. -/
def pickMetricsTarget (candidates : List Candidate) : String :=
  match candidates.find? (fun c => c.Kind == "metrics" && !c.Files.isEmpty) with
  | some c => c.Files.headD "main.go"
  | none => "main.go"

/-- go_generator.go generateGoInstrumentation (mode dispatch and edit order). -/
def generateGoInstrumentation (service mode : String) (candidates : List Candidate) :
    Except String InstrumentationPlan :=
  let tracesChanges :=
    if mode == "traces" || mode == "both" then
      [{ Path := "go.mod", Action := "append", Content := goModRequireContent : FileChange },
       generateGoTracerInit service,
       generateGoMiddleware service]
    else []
  let metricsChanges :=
    if mode == "metrics" || mode == "both" then
      let targetFile := pickMetricsTarget candidates
      [{ Path := "metrics/metrics.go", Action := "create",
         Content := generateMetricsFileContent service : FileChange },
       { Path := targetFile, Action := "append", Content := goImportSnippet,
         LineAfter := "import (" : FileChange },
       { Path := targetFile, Action := "modify", Content := goRouterSnippet,
         LineAfter := "router := gin.Default()" : FileChange }]
    else []
  .ok { Framework := "Go", Service := service, Mode := mode,
        Changes := tracesChanges ++ metricsChanges,
        Description := "Add Prometheus/OpenTelemetry instrumentation for " ++ service
          ++ " (mode: " ++ mode ++ ")" }

/-- python_generator.go generatePythonTracer. -/
def generatePythonTracer (service : String) : FileChange :=
  { Path := "otel_config.py"
    Action := "create"
    Content := "\n# OpenTelemetry Tracer Initialization\nfrom opentelemetry import trace\nfrom opentelemetry.sdk.trace import TracerProvider\nfrom opentelemetry.sdk.trace.export import BatchSpanProcessor\nfrom opentelemetry.exporter.otlp.proto.grpc.trace_exporter import OTLPSpanExporter\nfrom opentelemetry.sdk.resources import Resource\nfrom opentelemetry.instrumentation.flask import FlaskInstrumentor\n\ndef init_tracer():\n    \"\"\"Initialize OpenTelemetry tracer\"\"\"\n    resource = Resource.create(\x7b\"service.name\": \"" ++ service ++ "\"\x7d)\n    \n    tracer_provider = TracerProvider(resource=resource)\n    \n    # OTLP exporter\n    otlp_exporter = OTLPSpanExporter(\n        endpoint=\"http://otel-collector.observability.svc.cluster.local:4317\",\n        insecure=True\n    )\n    \n    tracer_provider.add_span_processor(BatchSpanProcessor(otlp_exporter))\n    trace.set_tracer_provider(tracer_provider)\n    \n    # Auto-instrument Flask (if using Flask)\n    FlaskInstrumentor().instrument()\n    \n    print(\"✅ OpenTelemetry tracer initialized\")\n\n# Call this in your main app file before app.run()\n# init_tracer()\n" }

/-- python_generator.go generatePythonMetrics. -/
def generatePythonMetrics : FileChange :=
  { Path := "metrics_config.py"
    Action := "create"
    Content := "\n# Prometheus Metrics\nfrom prometheus_client import Counter, Histogram, start_http_server, generate_latest\nfrom flask import Response\nimport time\n\n# Define metrics\nhttp_requests_total = Counter(\n    \x27http_requests_total\x27,\n    \x27Total HTTP requests\x27,\n    [\x27method\x27, \x27endpoint\x27, \x27status\x27]\n)\n\nhttp_request_duration_seconds = Histogram(\n    \x27http_request_duration_seconds\x27,\n    \x27HTTP request duration\x27,\n    [\x27method\x27, \x27endpoint\x27]\n)\n\ndef setup_metrics(app):\n    \"\"\"Setup Prometheus metrics for Flask app\"\"\"\n    \n    @app.before_request\n    def before_request():\n        request.start_time = time.time()\n    \n    @app.after_request\n    def after_request(response):\n        duration = time.time() - request.start_time\n        http_requests_total.labels(\n            method=request.method,\n            endpoint=request.endpoint or \x27unknown\x27,\n            status=response.status_code\n        ).inc()\n        \n        http_request_duration_seconds.labels(\n            method=request.method,\n            endpoint=request.endpoint or \x27unknown\x27\n        ).observe(duration)\n        \n        return response\n    \n    @app.route(\x27/metrics\x27)\n    def metrics():\n        \"\"\"Expose Prometheus metrics endpoint\"\"\"\n        return Response(generate_latest(), mimetype=\x27text/plain\x27)\n    \n    print(\"✅ Prometheus metrics initialized\")\n\n# Call this in your main app file:\n# setup_metrics(app)\n" }

/-- python_generator.go generatePythonInstrumentation. -/
def generatePythonInstrumentation (service mode : String) :
    Except String InstrumentationPlan :=
  let depTraces :=
    if mode == "traces" || mode == "both" then
      [{ Path := "requirements.txt", Action := "append",
         Content := "\n# OpenTelemetry dependencies\nopentelemetry-api>=1.20.0\nopentelemetry-sdk>=1.20.0\nopentelemetry-exporter-otlp-proto-grpc>=1.20.0\nopentelemetry-instrumentation-flask>=0.41b0\nopentelemetry-instrumentation-requests>=0.41b0" : FileChange }]
    else []
  let depMetrics :=
    if mode == "metrics" || mode == "both" then
      [{ Path := "requirements.txt", Action := "append",
         Content := "\n# Prometheus dependencies\nprometheus-client>=0.19.0" : FileChange }]
    else []
  let codeTraces :=
    if mode == "traces" || mode == "both" then [generatePythonTracer service] else []
  let codeMetrics :=
    if mode == "metrics" || mode == "both" then [generatePythonMetrics] else []
  .ok { Framework := "Python", Service := service, Mode := mode,
        Changes := depTraces ++ depMetrics ++ codeTraces ++ codeMetrics,
        Description := "Add OpenTelemetry instrumentation for " ++ service
          ++ " (mode: " ++ mode ++ ")" }

/-- Java generator: generateJavaTracerConfig. -/
def generateJavaTracerConfig (service : String) : FileChange :=
  { Path := "src/main/resources/application-otel.properties"
    Action := "create"
    Content := "# OpenTelemetry Configuration\n# Add to src/main/resources/application.properties\n\n# Service name\notel.service.name=" ++ service ++ "\n\n# OTLP exporter configuration\notel.traces.exporter=otlp\notel.exporter.otlp.endpoint=http://otel-collector.observability.svc.cluster.local:4317\notel.exporter.otlp.protocol=grpc\n\n# Enable auto-instrumentation\notel.instrumentation.spring-boot.enabled=true\notel.instrumentation.spring-webmvc.enabled=true\notel.instrumentation.spring-web.enabled=true\n\n# Sampling (always on for development, adjust for production)\notel.traces.sampler=always_on\n\n# Log level\nlogging.level.io.opentelemetry=INFO\n" }

/-- Java generator: generateJavaMetricsConfig. -/
def generateJavaMetricsConfig : FileChange :=
  { Path := "src/main/resources/application-metrics.properties"
    Action := "create"
    Content := "# Prometheus Metrics Configuration\n# Add to src/main/resources/application.properties\n\n# Enable actuator endpoints\nmanagement.endpoints.web.exposure.include=health,prometheus,metrics\nmanagement.endpoint.prometheus.enabled=true\nmanagement.endpoint.metrics.enabled=true\n\n# Prometheus endpoint\nmanagement.metrics.export.prometheus.enabled=true\n\n# Metrics tags\nmanagement.metrics.tags.application=$\x7bspring.application.name\x7d\nmanagement.metrics.tags.environment=$\x7bspring.profiles.active:dev\x7d\n\n# Enable common metrics\nmanagement.metrics.enable.jvm=true\nmanagement.metrics.enable.process=true\nmanagement.metrics.enable.system=true\nmanagement.metrics.enable.http.server.requests=true\n\n# Actuator base path (metrics available at /actuator/prometheus)\nmanagement.endpoints.web.base-path=/actuator\n" }

/-- Java generator: generateJavaInstrumentation. -/
def generateJavaInstrumentation (service mode : String) :
    Except String InstrumentationPlan :=
  let tracesChanges :=
    if mode == "traces" || mode == "both" then
      [{ Path := "pom.xml", Action := "append",
         Content := "\n<!-- OpenTelemetry dependencies -->\n<dependency>\n    <groupId>io.opentelemetry</groupId>\n    <artifactId>opentelemetry-api</artifactId>\n    <version>1.32.0</version>\n</dependency>\n<dependency>\n    <groupId>io.opentelemetry</groupId>\n    <artifactId>opentelemetry-sdk</artifactId>\n    <version>1.32.0</version>\n</dependency>\n<dependency>\n    <groupId>io.opentelemetry</groupId>\n    <artifactId>opentelemetry-exporter-otlp</artifactId>\n    <version>1.32.0</version>\n</dependency>\n<dependency>\n    <groupId>io.opentelemetry.instrumentation</groupId>\n    <artifactId>opentelemetry-spring-boot-starter</artifactId>\n    <version>2.0.0</version>\n</dependency>",
         LineAfter := "<dependencies>" : FileChange },
       generateJavaTracerConfig service]
    else []
  let metricsChanges :=
    if mode == "metrics" || mode == "both" then
      [{ Path := "pom.xml", Action := "append",
         Content := "\n<!-- Micrometer Prometheus dependencies -->\n<dependency>\n    <groupId>io.micrometer</groupId>\n    <artifactId>micrometer-registry-prometheus</artifactId>\n    <version>1.12.0</version>\n</dependency>\n<dependency>\n    <groupId>org.springframework.boot</groupId>\n    <artifactId>spring-boot-starter-actuator</artifactId>\n</dependency>",
         LineAfter := "<dependencies>" : FileChange },
       generateJavaMetricsConfig]
    else []
  .ok { Framework := "Java", Service := service, Mode := mode,
        Changes := tracesChanges ++ metricsChanges,
        Description := "Add OpenTelemetry instrumentation for " ++ service
          ++ " (mode: " ++ mode ++ ")" }

/-- generator.go generateNodeInstrumentation: unconditional error. -/
def generateNodeInstrumentation (_service _mode : String) :
    Except String InstrumentationPlan :=
  .error "Node.js instrumentation not implemented yet"

/-- generator.go Generate: dispatch by framework. -/
def Generate (framework service mode : String) (candidates : List Candidate) :
    Except String InstrumentationPlan :=
  match framework with
  | "Go" => generateGoInstrumentation service mode candidates
  | "Python" => generatePythonInstrumentation service mode
  | "Java" => generateJavaInstrumentation service mode
  | "Node.js" => generateNodeInstrumentation service mode
  | _ => .error ("unsupported framework: " ++ framework)

/-- First content stored under a path, as os.OpenFile/os.ReadFile would resolve it. -/
def fsLookup (fs : RepoFS) (p : String) : Option String :=
  (fs.files.find? (fun pc => pc.1 == p)).map (fun pc => pc.2)

/-- Write content at a path, replacing an existing entry or appending a new one. -/
def fsSet (fs : RepoFS) (p c : String) : RepoFS :=
  if fs.files.any (fun pc => pc.1 == p) then
    ⟨fs.files.map (fun pc => if pc.1 == p then (p, c) else pc)⟩
  else ⟨fs.files ++ [(p, c)]⟩

/-- The parent directory of a repo-relative path exists in the checkout: the
path is at top level, or some checkout file lies inside that directory
(expressed on slash components; git materializes exactly the directories
that hold files). -/
def dirOfFileExists (fs : RepoFS) (p : String) : Bool :=
  dirParts p == [] || fs.files.any (fun pc => (dirParts p).isPrefixOf (strSplitChar pc.1 '/'))

/-- One iteration of the edit loop of CreateInstrumentationPR (pr.go):
"append" opens the existing file in O_APPEND mode (error when absent) and
appends at end of file; "create" is os.WriteFile (truncating overwrite,
error when the parent directory does not exist); every other action,
"modify" included, falls through the if/else-if chain and does nothing. -/
def applyChange (fs : RepoFS) (c : FileChange) : Except String RepoFS :=
  if c.Action == "append" then
    match fsLookup fs c.Path with
    | some old => .ok (fsSet fs c.Path (old ++ c.Content))
    | none => .error ("failed to open " ++ c.Path)
  else if c.Action == "create" then
    if dirOfFileExists fs c.Path then .ok (fsSet fs c.Path c.Content)
    else .error ("open " ++ c.Path ++ ": no such file or directory")
  else .ok fs

/-- The edit loop of CreateInstrumentationPR over a whole plan, first error wins. -/
def applyChanges : RepoFS → List FileChange → Except String RepoFS
  | fs, [] => .ok fs
  | fs, c :: rest =>
    match applyChange fs c with
    | .ok fs2 => applyChanges fs2 rest
    | .error e => .error e

/-- The fixed ToggleSpec template for mode "metrics" (main.go). -/
def toggleSpecMetricsTemplate (serviceName : String) : String :=
  "# ToggleSpec for " ++ serviceName ++ "\ntelemetry_mode: metrics\nmetrics:\n  enabled: true\ntracing:\n  enabled: false\n"

/-- The fixed ToggleSpec template for mode "traces" (main.go). -/
def toggleSpecTracesTemplate (serviceName : String) : String :=
  "# ToggleSpec for " ++ serviceName ++ "\ntelemetry_mode: traces\nmetrics:\n  enabled: false\ntracing:\n  enabled: true\n"

/-- The fixed ToggleSpec template for mode "both" (main.go). -/
def toggleSpecBothTemplate (serviceName : String) : String :=
  "# ToggleSpec for " ++ serviceName ++ "\ntelemetry_mode: both\nmetrics:\n  enabled: true\ntracing:\n  enabled: true\n"

/-- The fixed ToggleSpec template for mode "none" (main.go default case). -/
def toggleSpecNoneTemplate (serviceName : String) : String :=
  "# ToggleSpec for " ++ serviceName ++ "\ntelemetry_mode: none\nmetrics:\n  enabled: false\ntracing:\n  enabled: false\n"

/-- cmd/server/main.go GenerateToggleSpecYAML. -/
def GenerateToggleSpecYAML (serviceName telemetryMode : String) : String :=
  match telemetryMode with
  | "metrics" => toggleSpecMetricsTemplate serviceName
  | "traces" => toggleSpecTracesTemplate serviceName
  | "both" => toggleSpecBothTemplate serviceName
  | _ => toggleSpecNoneTemplate serviceName

/-- pkg/togglespec GenerateToggleSpec: derives the mode from the two flags and
renders the matching template; returns (telemetryMode, spec). -/
def GenerateToggleSpec (serviceName _framework : String) (hasMetrics hasOTel : Bool) :
    String × String :=
  if hasMetrics && hasOTel then
    ("both", toggleSpecBothTemplate serviceName)
  else if hasMetrics then
    ("metrics", toggleSpecMetricsTemplate serviceName)
  else if hasOTel then
    ("traces", toggleSpecTracesTemplate serviceName)
  else
    ("none", toggleSpecNoneTemplate serviceName)

/-- Portion of a line before the first occurrence of a marker (strings.Index slice). -/
def beforeMarkL (marker : List Char) : List Char -> List Char
  | [] => []
  | c :: rest => if marker.isPrefixOf (c :: rest) then [] else c :: beforeMarkL marker rest

/-- Portion of a line before the first occurrence of a marker (strings.Index slice). -/
def beforeFirst (s t : String) : String := String.mk (beforeMarkL t.data s.data)

/-- Extensions findFilesInRepo keeps (scanner.go allowedExt). -/
def allowedExtList : List String :=
  [".go", ".py", ".java", ".js", ".ts", ".cs", ".rs", ".kt", ".scala", ".php"]

/-- The per-line comment filter of findFilesInRepo: a line certifies a file when
it contains the pattern outside the crude same-line comment heuristics. -/
def lineLetsPattern (pattern line : String) : Bool :=
  if !strContains line pattern then false
  else
    let trimmed := strTrim line
    if strHasPref trimmed "//" || strHasPref trimmed "#" || strHasPref trimmed "--"
        || strHasPref trimmed "<!--" then false
    else if strContains line "//" then strContains (beforeFirst line "//") pattern
    else if strContains trimmed "/*" || strContains trimmed "*/"
        || strHasPref trimmed "*" then false
    else true

/-- File-level acceptance of findFilesInRepo's re-check loop. -/
def fileHasLivePattern (content pattern : String) : Bool :=
  (strSplitChar content '\n').any (lineLetsPattern pattern)

/-- scanner.go findFilesInRepo: files listed by grep -ril, restricted to the
source-extension allowlist, whose content shows the pattern on a non-comment
line; results carry the absolute scratch path exactly as grep printed them.
The grep basic-regex pre-filter admits every file the literal per-line
re-check admits, so membership is decided by the re-check alone. -/
def findFilesInRepo (repoPath : String) (fs : RepoFS) (pattern : String) : List String :=
  (fs.files.filter (fun pc =>
      allowedExtList.contains (extOf pc.1) && fileHasLivePattern pc.2 pattern)).map
    (fun pc => repoPath ++ "/" ++ pc.1)

/-- scanner.go metricsPatterns table. -/
def metricsPatterns (framework : String) : Option (List String) :=
  match framework with
  | "Python" => some ["start_http_server(", "generate_latest(", "prometheus_client"]
  | "Go" => some ["http.Handle(\"/metrics\"", "promhttp.Handler()", "prometheus.MustRegister("]
  | "Java" => some ["MeterRegistry", "PrometheusMeterRegistry"]
  | ".NET" => some ["UsePrometheusServer"]
  | "Node.js" => some ["register.metrics()", "prom-client"]
  | "Rust" => some ["prometheus::register"]
  | _ => none

/-- scanner.go otelPatterns table. -/
def otelPatterns (framework : String) : Option (List String) :=
  match framework with
  | "Python" => some ["tracer.start_as_current_span(", "OTLPSpanExporter("]
  | "Go" => some ["tracer.Start(", "sdktrace.NewTracerProvider(", "otlptrace"]
  | "Java" => some ["tracer.spanBuilder(", "OtlpGrpcSpanExporter"]
  | ".NET" => some ["ActivitySource"]
  | "Node.js" => some ["tracer.startSpan(", "@opentelemetry/sdk-trace"]
  | "Rust" => some ["opentelemetry::"]
  | _ => none

/-- scanner.go detectMetrics: union over the framework's patterns, set-deduplicated. -/
def detectMetrics (repoPath : String) (fs : RepoFS) (framework : String) : List String :=
  match metricsPatterns framework with
  | none => []
  | some pats => dedupKeep (pats.flatMap (findFilesInRepo repoPath fs))

/-- scanner.go detectOTel. -/
def detectOTel (repoPath : String) (fs : RepoFS) (framework : String) : List String :=
  match otelPatterns framework with
  | none => []
  | some pats => dedupKeep (pats.flatMap (findFilesInRepo repoPath fs))

/-- Directory basenames AnalyzeGoRepo's walk refuses to descend into. -/
def goSkipDir (base : String) : Bool := base == "vendor" || base == ".git"

/-- Directory basenames the Python detection walks refuse to descend into. -/
def pySkipDir (base : String) : Bool :=
  base == "venv" || base == "vendor" || base == "__pycache__" || base == ".git"
    || base == ".venv"

/-- A repo-relative path is reached by a walk that skips goSkipDir directories. -/
def visitedGo (p : String) : Bool := (dirParts p).all (fun d => !goSkipDir d)

/-- A repo-relative path is reached by a walk that skips pySkipDir directories. -/
def visitedPy (p : String) : Bool := (dirParts p).all (fun d => !pySkipDir d)

/-- scanner.go detectGo: some go.mod anywhere outside vendor and .git. -/
def detectGo (fs : RepoFS) : Bool :=
  fs.files.any (fun pc => visitedGo pc.1 && baseName pc.1 == "go.mod")

/-- scanner.go detectPython: some .py file outside the skipped directories. -/
def detectPython (fs : RepoFS) : Bool :=
  fs.files.any (fun pc => visitedPy pc.1 && strHasSuf pc.1 ".py")

/-- scanner.go detectJava: a top-level Maven or Gradle manifest. -/
def detectJava (fs : RepoFS) : Bool :=
  ["pom.xml", "build.gradle", "build.gradle.kts"].any
    (fun f => fs.files.any (fun pc => pc.1 == f))

/-- scanner.go detectDotnet: glob *.csproj at top level. -/
def detectDotnet (fs : RepoFS) : Bool :=
  fs.files.any (fun pc => !strContains pc.1 "/" && strHasSuf pc.1 ".csproj")

/-- scanner.go detectNode: top-level package.json. -/
def detectNode (fs : RepoFS) : Bool := fs.files.any (fun pc => pc.1 == "package.json")

/-- scanner.go detectRust: top-level Cargo.toml. -/
def detectRust (fs : RepoFS) : Bool := fs.files.any (fun pc => pc.1 == "Cargo.toml")

/-- scanner.go detectGoFramework: first go.mod in the tree (this walk skips
nothing), classified by well-known module substrings. -/
def detectGoFramework (fs : RepoFS) : String :=
  match fs.files.find? (fun pc => baseName pc.1 == "go.mod") with
  | some pc =>
    if strContains pc.2 "github.com/gin-gonic/gin" then "Gin"
    else if strContains pc.2 "github.com/labstack/echo" then "Echo"
    else if strContains pc.2 "github.com/go-chi/chi" then "Chi"
    else if strContains pc.2 "github.com/gorilla/mux" then "Gorilla Mux"
    else "Go"
  | none => "Go"

/-- scanner.go detectPythonFramework: top-level requirements.txt first, then any
requirements.txt in the tree (case-insensitive name), else the default label. -/
def detectPythonFramework (fs : RepoFS) : String :=
  let top := lowerStr ((fsLookup fs "requirements.txt").getD "")
  if strContains top "flask" then "Flask"
  else if strContains top "django" then "Django"
  else if strContains top "fastapi" then "FastAPI"
  else
    match (fs.files.filterMap (fun pc =>
        if lowerStr (baseName pc.1) == "requirements.txt" then
          let s := lowerStr pc.2
          if strContains s "flask" then some "Flask"
          else if strContains s "django" then some "Django"
          else if strContains s "fastapi" then some "FastAPI"
          else none
        else none)).head? with
    | some fw => fw
    | none => "Python"

/-- scanner.go detectJavaFramework: inspect pom.xml and build.gradle contents. -/
def detectJavaFramework (fs : RepoFS) : String :=
  let content := (fsLookup fs "pom.xml").getD "" ++ (fsLookup fs "build.gradle").getD ""
  if strContains content "spring-boot" then "Spring Boot"
  else if strContains content "quarkus" then "Quarkus"
  else if strContains content "micronaut" then "Micronaut"
  else "Java"

/-- scanner.go detectNodeFramework: inspect package.json content. -/
def detectNodeFramework (fs : RepoFS) : String :=
  let c := (fsLookup fs "package.json").getD ""
  if strContains c "\"express\"" then "Express"
  else if strContains c "\"@nestjs/core\"" then "NestJS"
  else if strContains c "\"fastify\"" then "Fastify"
  else if strContains c "\"koa\"" then "Koa"
  else "Node.js"

/-- Candidate construction shared by AnalyzeGoRepo, AnalyzePythonRepo and the
fallback branches of ScanRepo: one metrics candidate when its file set is
non-empty, then one otel candidate when its file set is non-empty. -/
def mkKindCandidates (lang fw svc : String) (metricPats otelPats : List String)
    (metricFiles otelFiles : List String) : List Candidate :=
  (if !metricFiles.isEmpty then
    [{ Language := lang, Framework := fw, Kind := "metrics", Patterns := metricPats,
       Files := metricFiles, ServiceName := svc }]
  else [])
  ++ (if !otelFiles.isEmpty then
    [{ Language := lang, Framework := fw, Kind := "otel", Patterns := otelPats,
       Files := otelFiles, ServiceName := svc }]
  else [])

/-- go_detector.go AnalyzeGoRepo.  The per-file go/parser + AST classification
is the one non-translatable step; it enters as the opaque goClass parameter
mapping a file's content to (prometheus usage found, otel usage found), with
parse failure represented as (false, false) since such files are skipped.
The walk, skip list, extension filter, prefix trimming, deduplication and
candidate construction are translated from the source. -/
def AnalyzeGoRepoM (goClass : String → Bool × Bool) (root : String) (fs : RepoFS) :
    List Candidate :=
  if goSkipDir (baseName root) then [] else
  let visited := fs.files.filter (fun pc => visitedGo pc.1 && strHasSuf pc.1 ".go")
  let metricFiles := dedupKeep ((visited.filter (fun pc => (goClass pc.2).1)).map
    (fun pc => trimPrefixStr (root ++ "/" ++ pc.1) (root ++ "/")))
  let otelFiles := dedupKeep ((visited.filter (fun pc => (goClass pc.2).2)).map
    (fun pc => trimPrefixStr (root ++ "/" ++ pc.1) (root ++ "/")))
  mkKindCandidates "Go" "Go" "go-service"
    ["prometheus.MustRegister", "promhttp.Handler", "NewCounterVec"]
    ["gin.Default", "sdktrace.NewTracerProvider", "otlptrace"]
    metricFiles otelFiles

/-- Python analyzer: Flask-app detection per file content. -/
def pyFlaskFile (code : String) : Bool :=
  (strContains code "Flask(__name__)" || strContains code "Flask(")
    && (strContains code "from flask import" || strContains code "import flask")

/-- Python analyzer: prometheus_client import pass. -/
def pyPromImport (code : String) : Bool :=
  strContains code "from prometheus_client import"
    || strContains code "import prometheus_client"

/-- Python analyzer: prometheus usage pass (allowlisted constructs). -/
def pyPromUsage (code : String) : Bool :=
  strContains code "start_http_server(" || strContains code "Counter("
    || strContains code "Histogram(" || strContains code "Summary("
    || strContains code "Gauge(" || strContains code "generate_latest("
    || strContains code ".inc(" || strContains code ".observe("

/-- Python analyzer: opentelemetry import pass. -/
def pyOtelImport (code : String) : Bool :=
  strContains code "opentelemetry" || strContains code "from opentelemetry"

/-- Python analyzer: opentelemetry usage pass (allowlisted constructs). -/
def pyOtelUsage (code : String) : Bool :=
  strContains code "TracerProvider(" || strContains code "FlaskInstrumentor"
    || strContains code "OTLPSpanExporter(" || strContains code "start_as_current_span("
    || strContains code "set_tracer_provider(" || strContains code ".instrument()"

/-- Python analyzer: detectPythonFrameworkFromRequirements. -/
def detectPythonFrameworkFromRequirements (fs : RepoFS) : String :=
  match fsLookup fs "requirements.txt" with
  | none => "Python"
  | some content =>
    let s := lowerStr content
    if strContains s "flask" then "Flask"
    else if strContains s "django" then "Django"
    else if strContains s "fastapi" then "FastAPI"
    else "Python"

/-- AnalyzePythonRepo: full substring-based two-pass analyzer over .py files
outside the skipped directories, with framework inference from Flask files or
requirements.txt, prefix trimming, deduplication and candidate construction. -/
def AnalyzePythonRepoM (root : String) (fs : RepoFS) : List Candidate :=
  if pySkipDir (baseName root) then [] else
  let visited := fs.files.filter (fun pc => visitedPy pc.1 && strHasSuf pc.1 ".py")
  let metricFiles := dedupKeep ((visited.filter
      (fun pc => pyPromImport pc.2 && pyPromUsage pc.2)).map
    (fun pc => trimPrefixStr (root ++ "/" ++ pc.1) (root ++ "/")))
  let otelFiles := dedupKeep ((visited.filter
      (fun pc => pyOtelImport pc.2 && pyOtelUsage pc.2)).map
    (fun pc => trimPrefixStr (root ++ "/" ++ pc.1) (root ++ "/")))
  let flaskFiles := dedupKeep ((visited.filter (fun pc => pyFlaskFile pc.2)).map
    (fun pc => trimPrefixStr (root ++ "/" ++ pc.1) (root ++ "/")))
  let framework :=
    if !flaskFiles.isEmpty then "Flask" else detectPythonFrameworkFromRequirements fs
  mkKindCandidates "Python" framework "python-service"
    ["prometheus_client", "start_http_server", "Counter", "Histogram"]
    ["TracerProvider", "FlaskInstrumentor", "OTLPSpanExporter"]
    metricFiles otelFiles

/-- Output of one language branch of ScanRepo. -/
structure BranchOut where
  dets : List FrameworkDetection
  svcs : List String
  cands : List Candidate
deriving DecidableEq, Repr

/-- Fallback/grep aggregation shared by ScanRepo's Java, Node.js, .NET and Rust
branches and by the Go/Python fallback paths: flags from emptiness of the two
grep file sets, candidates appended only when non-empty. -/
def grepBranchCore (lang fw svc : String) (metricPats otelPats : List String)
    (metricFiles otelFiles : List String) : BranchOut :=
  ⟨[{ Language := lang, Framework := fw, HasMetrics := !metricFiles.isEmpty,
      HasOTel := !otelFiles.isEmpty, ServiceName := svc }],
   [svc],
   mkKindCandidates lang fw svc metricPats otelPats metricFiles otelFiles⟩

/-- ScanRepo's aggregation over structural-analyzer candidates: flags from the
candidate lists, then per-candidate normalization of file paths by trimming
the scratch-checkout prefix. -/
def astAggregate (lang fw svc : String) (clonePath : String) (cands : List Candidate) :
    BranchOut :=
  ⟨[{ Language := lang, Framework := fw,
      HasMetrics := cands.any (fun c => c.Kind == "metrics" && !c.Files.isEmpty),
      HasOTel := cands.any (fun c => c.Kind == "otel" && !c.Files.isEmpty),
      ServiceName := svc }],
   [svc],
   cands.map (fun c =>
     { c with Files := c.Files.map (fun f => trimPrefixStr f (clonePath ++ "/")) })⟩

/-- The Go branch of ScanRepo: AST analysis when the walk succeeds, grep
fallback otherwise. -/
def goBranch (clonePath : String) (fs : RepoFS) (goWalkOk : Bool)
    (goClass : String → Bool × Bool) : BranchOut :=
  if detectGo fs then
    let fwName := detectGoFramework fs
    if goWalkOk then
      astAggregate "Go" fwName "go-service" clonePath (AnalyzeGoRepoM goClass clonePath fs)
    else
      grepBranchCore "Go" fwName "go-service"
        ["http.Handle(\"/metrics\"", "promhttp.Handler()", "prometheus.MustRegister("]
        ["tracer.Start(", "sdktrace.NewTracerProvider(", "otlptrace"]
        (detectMetrics clonePath fs "Go") (detectOTel clonePath fs "Go")
  else ⟨[], [], []⟩

/-- The Python branch of ScanRepo: the substring analyzer when its walk
succeeds (with the framework label recomputed from the candidates), grep
fallback otherwise. -/
def pythonBranch (clonePath : String) (fs : RepoFS) (pyWalkOk : Bool) : BranchOut :=
  if detectPython fs then
    if pyWalkOk then
      let pyCands := AnalyzePythonRepoM clonePath fs
      let fwName := pyCands.foldl
        (fun acc c => if c.Framework != "Python" then c.Framework else acc) "Python"
      astAggregate "Python" fwName "python-service" clonePath pyCands
    else
      grepBranchCore "Python" (detectPythonFramework fs) "python-service"
        ["start_http_server(", "generate_latest(", "prometheus_client"]
        ["tracer.start_as_current_span(", "OTLPSpanExporter("]
        (detectMetrics clonePath fs "Python") (detectOTel clonePath fs "Python")
  else ⟨[], [], []⟩

/-- The Java branch of ScanRepo (always grep-based). -/
def javaBranch (clonePath : String) (fs : RepoFS) : BranchOut :=
  if detectJava fs then
    grepBranchCore "Java" (detectJavaFramework fs) "java-service"
      ["MeterRegistry", "PrometheusMeterRegistry"]
      ["tracer.spanBuilder(", "OtlpGrpcSpanExporter"]
      (detectMetrics clonePath fs "Java") (detectOTel clonePath fs "Java")
  else ⟨[], [], []⟩

/-- The Node.js branch of ScanRepo (always grep-based). -/
def nodeBranch (clonePath : String) (fs : RepoFS) : BranchOut :=
  if detectNode fs then
    grepBranchCore "Node.js" (detectNodeFramework fs) "nodejs-service"
      ["register.metrics()", "prom-client"]
      ["tracer.startSpan(", "@opentelemetry/sdk-trace"]
      (detectMetrics clonePath fs "Node.js") (detectOTel clonePath fs "Node.js")
  else ⟨[], [], []⟩

/-- The .NET branch of ScanRepo (always grep-based). -/
def dotnetBranch (clonePath : String) (fs : RepoFS) : BranchOut :=
  if detectDotnet fs then
    grepBranchCore ".NET" ".NET" "dotnet-service"
      ["UsePrometheusServer"] ["ActivitySource"]
      (detectMetrics clonePath fs ".NET") (detectOTel clonePath fs ".NET")
  else ⟨[], [], []⟩

/-- The Rust branch of ScanRepo (always grep-based). -/
def rustBranch (clonePath : String) (fs : RepoFS) : BranchOut :=
  if detectRust fs then
    grepBranchCore "Rust" "Rust" "rust-service"
      ["prometheus::register"] ["opentelemetry::"]
      (detectMetrics clonePath fs "Rust") (detectOTel clonePath fs "Rust")
  else ⟨[], [], []⟩

/-- scanner.go ScanRepo after the clone: the six language branches in source
order, concatenated into one ScanResult.  clonePath is the scratch checkout
path /tmp/<repoID>; goWalkOk and pyWalkOk tell whether the structural
analyzers returned without error (false selects the grep fallback). -/
def ScanRepoM (clonePath : String) (fs : RepoFS) (goWalkOk : Bool)
    (goClass : String → Bool × Bool) (pyWalkOk : Bool) : ScanResult :=
  let b1 := goBranch clonePath fs goWalkOk goClass
  let b2 := pythonBranch clonePath fs pyWalkOk
  let b3 := javaBranch clonePath fs
  let b4 := nodeBranch clonePath fs
  let b5 := dotnetBranch clonePath fs
  let b6 := rustBranch clonePath fs
  ⟨b1.dets ++ b2.dets ++ b3.dets ++ b4.dets ++ b5.dets ++ b6.dets,
   b1.svcs ++ b2.svcs ++ b3.svcs ++ b4.svcs ++ b5.svcs ++ b6.svcs,
   b1.cands ++ b2.cands ++ b3.cands ++ b4.cands ++ b5.cands ++ b6.cands⟩

/-- Content of a small Gin entry point used as a concrete checkout. -/
def mainGoContent : String :=
  "package main\n\nimport (\n\t\"github.com/gin-gonic/gin\"\n)\n\nfunc main() \x7b\n\trouter := gin.Default()\n\trouter.Run(\":8080\")\n\x7d\n"

/-- A checkout holding only the Gin entry point. -/
def fsMainGo : RepoFS := ⟨[("main.go", mainGoContent)]⟩

/-- A clean Go checkout (manifest plus entry point, no instrumentation). -/
def fsCleanGo : RepoFS :=
  ⟨[("go.mod", "module demo\n\ngo 1.21\n\nrequire github.com/gin-gonic/gin v1.9.1\n"),
    ("main.go", mainGoContent)]⟩

/-- A Java checkout whose single source file references the metrics library
through an import statement alone, with no call of any kind. -/
def fsJavaImportOnly : RepoFS :=
  ⟨[("pom.xml", "<project>\n  <dependencies>\n  </dependencies>\n</project>\n"),
    ("src/Foo.java", "import io.micrometer.core.instrument.MeterRegistry;\n")]⟩

/-- A Java checkout whose only instrumentation evidence sits in a vendored
dependency tree. -/
def fsJavaVendored : RepoFS :=
  ⟨[("pom.xml", "<project></project>\n"),
    ("vendor/metrics/Reg.java", "MeterRegistry registry = Metrics.globalRegistry;\n")]⟩

/-- The checkout paths are repo-relative: none carries the scratch prefix. -/
def CleanFS (cp : String) (fs : RepoFS) : Prop :=
  ∀ pc ∈ fs.files, strHasPref pc.1 (cp ++ "/") = false

/-- A Python checkout whose file imports prometheus_client and uses it. -/
def fsPyUsage : RepoFS :=
  ⟨[("app.py", "from prometheus_client import Counter\nhits = Counter(\x27hits_total\x27, \x27Hits\x27)\nhits.inc()\n")]⟩

/-- A concrete stand-in for the per-file Go AST classification: prometheus
usage when MustRegister is called, otel usage when a tracer provider is built. -/
def goClassExample : String → Bool × Bool :=
  fun content => (strContains content "prometheus.MustRegister(",
    strContains content "sdktrace.NewTracerProvider(")

/-- A Go checkout with real usage in metrics/ and a vendored copy under vendor/. -/
def fsGoAstExample : RepoFS :=
  ⟨[("metrics/metrics.go", "package metrics\n\nfunc init() \x7b\n\tprometheus.MustRegister(reqs)\n\x7d\n"),
    ("vendor/dep/dep.go", "package dep\n\nfunc Reg() \x7b\n\tprometheus.MustRegister(x)\n\x7d\n")]⟩

/-- A language branch is coherent: its detections carry the branch language and
their two flags match non-emptiness of a matching-kind candidate's files, and
its candidates carry the branch language. -/
def BranchGood (L : String) (b : BranchOut) : Prop :=
  (∀ fd ∈ b.dets, fd.Language = L ∧
    (fd.HasMetrics = true ↔ ∃ c ∈ b.cands, c.Kind = "metrics" ∧ c.Files ≠ []) ∧
    (fd.HasOTel = true ↔ ∃ c ∈ b.cands, c.Kind = "otel" ∧ c.Files ≠ []))
  ∧ (∀ c ∈ b.cands, c.Language = L)

theorem trimPrefixStr_append (p r : String) : trimPrefixStr (p ++ r) p = r := by
  simp [trimPrefixStr, String.data_append]

theorem mem_dedupKeep {x : String} {l : List String} : x ∈ dedupKeep l ↔ x ∈ l := by
  induction l with
  | nil => simp [dedupKeep]
  | cons a rest ih =>
    by_cases h : a ∈ rest
    · simp only [dedupKeep, if_pos h, ih, List.mem_cons]
      constructor
      · exact fun hx => Or.inr hx
      · rintro (rfl | hx)
        · exact h
        · exact hx
    · simp [dedupKeep, if_neg h, ih]

theorem nodup_dedupKeep (l : List String) : (dedupKeep l).Nodup := by
  induction l with
  | nil => simp [dedupKeep]
  | cons a rest ih =>
    by_cases h : a ∈ rest
    · simpa [dedupKeep, if_pos h] using ih
    · simp only [dedupKeep, if_neg h]
      exact List.nodup_cons.mpr ⟨fun hx => h (mem_dedupKeep.mp hx), ih⟩

theorem dedupKeep_eq_nil {l : List String} : dedupKeep l = [] ↔ l = [] := by
  induction l with
  | nil => simp [dedupKeep]
  | cons a rest ih =>
    by_cases h : a ∈ rest
    · simp only [dedupKeep, if_pos h, ih]
      constructor
      · rintro rfl; exact absurd h (List.not_mem_nil a)
      · intro hc; cases hc
    · simp [dedupKeep, if_neg h]

theorem mem_mkKindCandidates {c : Candidate} {lang fw svc : String}
    {mp op mf of : List String} :
    c ∈ mkKindCandidates lang fw svc mp op mf of ↔
      (mf ≠ [] ∧
        c = { Language := lang, Framework := fw, Kind := "metrics",
              Patterns := mp, Files := mf, ServiceName := svc }) ∨
      (of ≠ [] ∧
        c = { Language := lang, Framework := fw, Kind := "otel",
              Patterns := op, Files := of, ServiceName := svc }) := by
  by_cases hm : mf = [] <;> by_cases ho : of = [] <;>
    simp [mkKindCandidates, hm, ho]

theorem lang_mkKindCandidates {c : Candidate} {lang fw svc : String}
    {mp op mf of : List String} (h : c ∈ mkKindCandidates lang fw svc mp op mf of) :
    c.Language = lang := by
  rcases mem_mkKindCandidates.mp h with ⟨_, rfl⟩ | ⟨_, rfl⟩ <;> rfl

theorem exists_metrics_mkKindCandidates {lang fw svc : String}
    {mp op mf of : List String} :
    (∃ c ∈ mkKindCandidates lang fw svc mp op mf of, c.Kind = "metrics" ∧ c.Files ≠ [])
      ↔ mf ≠ [] := by
  constructor
  · rintro ⟨c, hc, hk, hf⟩
    rcases mem_mkKindCandidates.mp hc with ⟨hne, rfl⟩ | ⟨hne, rfl⟩
    · simpa using hf
    · simp at hk
  · intro hne
    exact ⟨_, mem_mkKindCandidates.mpr (Or.inl ⟨hne, rfl⟩), rfl, hne⟩

theorem exists_otel_mkKindCandidates {lang fw svc : String}
    {mp op mf of : List String} :
    (∃ c ∈ mkKindCandidates lang fw svc mp op mf of, c.Kind = "otel" ∧ c.Files ≠ [])
      ↔ of ≠ [] := by
  constructor
  · rintro ⟨c, hc, hk, hf⟩
    rcases mem_mkKindCandidates.mp hc with ⟨hne, rfl⟩ | ⟨hne, rfl⟩
    · simp at hk
    · simpa using hf
  · intro hne
    exact ⟨_, mem_mkKindCandidates.mpr (Or.inr ⟨hne, rfl⟩), rfl, hne⟩

theorem any_kind_eq (cands : List Candidate) (k : String) :
    cands.any (fun c => c.Kind == k && !c.Files.isEmpty) = true ↔
      ∃ c ∈ cands, c.Kind = k ∧ c.Files ≠ [] := by
  simp [List.any_eq_true, List.isEmpty_iff]

theorem exists_mapped_kind (cp : String) (cands : List Candidate) (k : String) :
    (∃ c ∈ cands.map (fun c =>
        { c with Files := c.Files.map (fun f => trimPrefixStr f (cp ++ "/")) }),
      c.Kind = k ∧ c.Files ≠ []) ↔ ∃ c ∈ cands, c.Kind = k ∧ c.Files ≠ [] := by
  simp only [List.mem_map]
  constructor
  · rintro ⟨c2, ⟨c, hc, rfl⟩, hk, hf⟩
    exact ⟨c, hc, hk, fun h0 => hf (by simp [h0])⟩
  · rintro ⟨c, hc, hk, hf⟩
    exact ⟨_, ⟨c, hc, rfl⟩, hk, by simpa using hf⟩

theorem grepBranchCore_good (lang fw svc : String) (mp op mf of : List String) :
    BranchGood lang (grepBranchCore lang fw svc mp op mf of) := by
  constructor
  · intro fd hfd
    simp only [grepBranchCore, List.mem_singleton] at hfd
    subst hfd
    refine ⟨rfl, ?_, ?_⟩
    · simpa [grepBranchCore, List.isEmpty_iff] using
        exists_metrics_mkKindCandidates.symm
    · simpa [grepBranchCore, List.isEmpty_iff] using
        exists_otel_mkKindCandidates.symm
  · intro c hc
    exact lang_mkKindCandidates hc

theorem astAggregate_good (lang fw svc cp : String) (cands : List Candidate)
    (h : ∀ c ∈ cands, c.Language = lang) :
    BranchGood lang (astAggregate lang fw svc cp cands) := by
  constructor
  · intro fd hfd
    simp only [astAggregate, List.mem_singleton] at hfd
    subst hfd
    exact ⟨rfl,
      ((any_kind_eq cands "metrics").trans (exists_mapped_kind cp cands "metrics").symm),
      ((any_kind_eq cands "otel").trans (exists_mapped_kind cp cands "otel").symm)⟩
  · intro c hc
    simp only [astAggregate, List.mem_map] at hc
    obtain ⟨c0, hc0, rfl⟩ := hc
    exact h c0 hc0

theorem AnalyzeGoRepoM_lang (goClass : String → Bool × Bool) (root : String)
    (fs : RepoFS) : ∀ c ∈ AnalyzeGoRepoM goClass root fs, c.Language = "Go" := by
  intro c hc
  unfold AnalyzeGoRepoM at hc
  split at hc
  · cases hc
  · exact lang_mkKindCandidates hc

theorem AnalyzePythonRepoM_lang (root : String) (fs : RepoFS) :
    ∀ c ∈ AnalyzePythonRepoM root fs, c.Language = "Python" := by
  intro c hc
  unfold AnalyzePythonRepoM at hc
  split at hc
  · cases hc
  · exact lang_mkKindCandidates hc

theorem emptyBranch_good (L : String) : BranchGood L ⟨[], [], []⟩ := by
  constructor
  · intro fd hfd; cases hfd
  · intro c hc; cases hc

theorem goBranch_good (cp : String) (fs : RepoFS) (goOk : Bool)
    (goClass : String → Bool × Bool) : BranchGood "Go" (goBranch cp fs goOk goClass) := by
  unfold goBranch
  split
  · split
    · exact astAggregate_good _ _ _ _ _ (AnalyzeGoRepoM_lang goClass cp fs)
    · exact grepBranchCore_good _ _ _ _ _ _ _
  · exact emptyBranch_good _

theorem pythonBranch_good (cp : String) (fs : RepoFS) (pyOk : Bool) :
    BranchGood "Python" (pythonBranch cp fs pyOk) := by
  unfold pythonBranch
  split
  · split
    · exact astAggregate_good _ _ _ _ _ (AnalyzePythonRepoM_lang cp fs)
    · exact grepBranchCore_good _ _ _ _ _ _ _
  · exact emptyBranch_good _

theorem javaBranch_good (cp : String) (fs : RepoFS) :
    BranchGood "Java" (javaBranch cp fs) := by
  unfold javaBranch
  split
  · exact grepBranchCore_good _ _ _ _ _ _ _
  · exact emptyBranch_good _

theorem nodeBranch_good (cp : String) (fs : RepoFS) :
    BranchGood "Node.js" (nodeBranch cp fs) := by
  unfold nodeBranch
  split
  · exact grepBranchCore_good _ _ _ _ _ _ _
  · exact emptyBranch_good _

theorem dotnetBranch_good (cp : String) (fs : RepoFS) :
    BranchGood ".NET" (dotnetBranch cp fs) := by
  unfold dotnetBranch
  split
  · exact grepBranchCore_good _ _ _ _ _ _ _
  · exact emptyBranch_good _

theorem rustBranch_good (cp : String) (fs : RepoFS) :
    BranchGood "Rust" (rustBranch cp fs) := by
  unfold rustBranch
  split
  · exact grepBranchCore_good _ _ _ _ _ _ _
  · exact emptyBranch_good _

theorem exists_six {P : Candidate → Prop} {L : String}
    {l1 l2 l3 l4 l5 l6 t : List Candidate}
    (ht : ∀ c ∈ t, c.Language = L)
    (h1 : l1 = t ∨ ∀ c ∈ l1, c.Language ≠ L)
    (h2 : l2 = t ∨ ∀ c ∈ l2, c.Language ≠ L)
    (h3 : l3 = t ∨ ∀ c ∈ l3, c.Language ≠ L)
    (h4 : l4 = t ∨ ∀ c ∈ l4, c.Language ≠ L)
    (h5 : l5 = t ∨ ∀ c ∈ l5, c.Language ≠ L)
    (h6 : l6 = t ∨ ∀ c ∈ l6, c.Language ≠ L)
    (hsome : l1 = t ∨ l2 = t ∨ l3 = t ∨ l4 = t ∨ l5 = t ∨ l6 = t) :
    (∃ c ∈ l1 ++ l2 ++ l3 ++ l4 ++ l5 ++ l6, c.Language = L ∧ P c) ↔
      ∃ c ∈ t, P c := by
  constructor
  · rintro ⟨c, hc, hL, hp⟩
    simp only [List.mem_append] at hc
    rcases hc with ((((hc | hc) | hc) | hc) | hc) | hc
    · rcases h1 with rfl | hn
      · exact ⟨c, hc, hp⟩
      · exact absurd hL (hn c hc)
    · rcases h2 with rfl | hn
      · exact ⟨c, hc, hp⟩
      · exact absurd hL (hn c hc)
    · rcases h3 with rfl | hn
      · exact ⟨c, hc, hp⟩
      · exact absurd hL (hn c hc)
    · rcases h4 with rfl | hn
      · exact ⟨c, hc, hp⟩
      · exact absurd hL (hn c hc)
    · rcases h5 with rfl | hn
      · exact ⟨c, hc, hp⟩
      · exact absurd hL (hn c hc)
    · rcases h6 with rfl | hn
      · exact ⟨c, hc, hp⟩
      · exact absurd hL (hn c hc)
  · rintro ⟨c, hc, hp⟩
    refine ⟨c, ?_, ht c hc, hp⟩
    simp only [List.mem_append]
    rcases hsome with rfl | rfl | rfl | rfl | rfl | rfl
    · exact Or.inl (Or.inl (Or.inl (Or.inl (Or.inl hc))))
    · exact Or.inl (Or.inl (Or.inl (Or.inl (Or.inr hc))))
    · exact Or.inl (Or.inl (Or.inl (Or.inr hc)))
    · exact Or.inl (Or.inl (Or.inr hc))
    · exact Or.inl (Or.inr hc)
    · exact Or.inr hc

/-- Claim C5: invariant of every ScanResult: for each FrameworkDetection,
has_metrics is true iff at least one DetectionCandidate of kind "metrics" for
that language has a non-empty file set, and has_otel is true iff at least one
candidate of the tracing kind "otel" for that language has a non-empty file
set; this holds on the structural and on the fallback detection paths. -/
theorem claim_C5 (cp : String) (fs : RepoFS) (goOk : Bool)
    (goClass : String → Bool × Bool) (pyOk : Bool) :
    ∀ fd ∈ (ScanRepoM cp fs goOk goClass pyOk).Frameworks,
      (fd.HasMetrics = true ↔
        ∃ c ∈ (ScanRepoM cp fs goOk goClass pyOk).Candidates,
          c.Language = fd.Language ∧ c.Kind = "metrics" ∧ c.Files ≠ []) ∧
      (fd.HasOTel = true ↔
        ∃ c ∈ (ScanRepoM cp fs goOk goClass pyOk).Candidates,
          c.Language = fd.Language ∧ c.Kind = "otel" ∧ c.Files ≠ []) := by
  intro fd hfd
  have hg1 := goBranch_good cp fs goOk goClass
  have hg2 := pythonBranch_good cp fs pyOk
  have hg3 := javaBranch_good cp fs
  have hg4 := nodeBranch_good cp fs
  have hg5 := dotnetBranch_good cp fs
  have hg6 := rustBranch_good cp fs
  simp only [ScanRepoM, List.mem_append] at hfd
  simp only [ScanRepoM]
  rcases hfd with ((((h | h) | h) | h) | h) | h
  · obtain ⟨hL, hm, ho⟩ := hg1.1 fd h
    have ht : ∀ c ∈ (goBranch cp fs goOk goClass).cands, c.Language = fd.Language :=
      fun c hc => (hg1.2 c hc).trans hL.symm
    have n2 : ∀ c ∈ (pythonBranch cp fs pyOk).cands, c.Language ≠ fd.Language :=
      fun c hc => by rw [hg2.2 c hc, hL]; decide
    have n3 : ∀ c ∈ (javaBranch cp fs).cands, c.Language ≠ fd.Language :=
      fun c hc => by rw [hg3.2 c hc, hL]; decide
    have n4 : ∀ c ∈ (nodeBranch cp fs).cands, c.Language ≠ fd.Language :=
      fun c hc => by rw [hg4.2 c hc, hL]; decide
    have n5 : ∀ c ∈ (dotnetBranch cp fs).cands, c.Language ≠ fd.Language :=
      fun c hc => by rw [hg5.2 c hc, hL]; decide
    have n6 : ∀ c ∈ (rustBranch cp fs).cands, c.Language ≠ fd.Language :=
      fun c hc => by rw [hg6.2 c hc, hL]; decide
    exact ⟨hm.trans (exists_six ht (Or.inl rfl) (Or.inr n2) (Or.inr n3) (Or.inr n4)
        (Or.inr n5) (Or.inr n6) (Or.inl rfl)).symm,
      ho.trans (exists_six ht (Or.inl rfl) (Or.inr n2) (Or.inr n3) (Or.inr n4)
        (Or.inr n5) (Or.inr n6) (Or.inl rfl)).symm⟩
  · obtain ⟨hL, hm, ho⟩ := hg2.1 fd h
    have ht : ∀ c ∈ (pythonBranch cp fs pyOk).cands, c.Language = fd.Language :=
      fun c hc => (hg2.2 c hc).trans hL.symm
    have n1 : ∀ c ∈ (goBranch cp fs goOk goClass).cands, c.Language ≠ fd.Language :=
      fun c hc => by rw [hg1.2 c hc, hL]; decide
    have n3 : ∀ c ∈ (javaBranch cp fs).cands, c.Language ≠ fd.Language :=
      fun c hc => by rw [hg3.2 c hc, hL]; decide
    have n4 : ∀ c ∈ (nodeBranch cp fs).cands, c.Language ≠ fd.Language :=
      fun c hc => by rw [hg4.2 c hc, hL]; decide
    have n5 : ∀ c ∈ (dotnetBranch cp fs).cands, c.Language ≠ fd.Language :=
      fun c hc => by rw [hg5.2 c hc, hL]; decide
    have n6 : ∀ c ∈ (rustBranch cp fs).cands, c.Language ≠ fd.Language :=
      fun c hc => by rw [hg6.2 c hc, hL]; decide
    exact ⟨hm.trans (exists_six ht (Or.inr n1) (Or.inl rfl) (Or.inr n3) (Or.inr n4)
        (Or.inr n5) (Or.inr n6) (Or.inr (Or.inl rfl))).symm,
      ho.trans (exists_six ht (Or.inr n1) (Or.inl rfl) (Or.inr n3) (Or.inr n4)
        (Or.inr n5) (Or.inr n6) (Or.inr (Or.inl rfl))).symm⟩
  · obtain ⟨hL, hm, ho⟩ := hg3.1 fd h
    have ht : ∀ c ∈ (javaBranch cp fs).cands, c.Language = fd.Language :=
      fun c hc => (hg3.2 c hc).trans hL.symm
    have n1 : ∀ c ∈ (goBranch cp fs goOk goClass).cands, c.Language ≠ fd.Language :=
      fun c hc => by rw [hg1.2 c hc, hL]; decide
    have n2 : ∀ c ∈ (pythonBranch cp fs pyOk).cands, c.Language ≠ fd.Language :=
      fun c hc => by rw [hg2.2 c hc, hL]; decide
    have n4 : ∀ c ∈ (nodeBranch cp fs).cands, c.Language ≠ fd.Language :=
      fun c hc => by rw [hg4.2 c hc, hL]; decide
    have n5 : ∀ c ∈ (dotnetBranch cp fs).cands, c.Language ≠ fd.Language :=
      fun c hc => by rw [hg5.2 c hc, hL]; decide
    have n6 : ∀ c ∈ (rustBranch cp fs).cands, c.Language ≠ fd.Language :=
      fun c hc => by rw [hg6.2 c hc, hL]; decide
    exact ⟨hm.trans (exists_six ht (Or.inr n1) (Or.inr n2) (Or.inl rfl) (Or.inr n4)
        (Or.inr n5) (Or.inr n6) (Or.inr (Or.inr (Or.inl rfl)))).symm,
      ho.trans (exists_six ht (Or.inr n1) (Or.inr n2) (Or.inl rfl) (Or.inr n4)
        (Or.inr n5) (Or.inr n6) (Or.inr (Or.inr (Or.inl rfl)))).symm⟩
  · obtain ⟨hL, hm, ho⟩ := hg4.1 fd h
    have ht : ∀ c ∈ (nodeBranch cp fs).cands, c.Language = fd.Language :=
      fun c hc => (hg4.2 c hc).trans hL.symm
    have n1 : ∀ c ∈ (goBranch cp fs goOk goClass).cands, c.Language ≠ fd.Language :=
      fun c hc => by rw [hg1.2 c hc, hL]; decide
    have n2 : ∀ c ∈ (pythonBranch cp fs pyOk).cands, c.Language ≠ fd.Language :=
      fun c hc => by rw [hg2.2 c hc, hL]; decide
    have n3 : ∀ c ∈ (javaBranch cp fs).cands, c.Language ≠ fd.Language :=
      fun c hc => by rw [hg3.2 c hc, hL]; decide
    have n5 : ∀ c ∈ (dotnetBranch cp fs).cands, c.Language ≠ fd.Language :=
      fun c hc => by rw [hg5.2 c hc, hL]; decide
    have n6 : ∀ c ∈ (rustBranch cp fs).cands, c.Language ≠ fd.Language :=
      fun c hc => by rw [hg6.2 c hc, hL]; decide
    exact ⟨hm.trans (exists_six ht (Or.inr n1) (Or.inr n2) (Or.inr n3) (Or.inl rfl)
        (Or.inr n5) (Or.inr n6) (Or.inr (Or.inr (Or.inr (Or.inl rfl))))).symm,
      ho.trans (exists_six ht (Or.inr n1) (Or.inr n2) (Or.inr n3) (Or.inl rfl)
        (Or.inr n5) (Or.inr n6) (Or.inr (Or.inr (Or.inr (Or.inl rfl))))).symm⟩
  · obtain ⟨hL, hm, ho⟩ := hg5.1 fd h
    have ht : ∀ c ∈ (dotnetBranch cp fs).cands, c.Language = fd.Language :=
      fun c hc => (hg5.2 c hc).trans hL.symm
    have n1 : ∀ c ∈ (goBranch cp fs goOk goClass).cands, c.Language ≠ fd.Language :=
      fun c hc => by rw [hg1.2 c hc, hL]; decide
    have n2 : ∀ c ∈ (pythonBranch cp fs pyOk).cands, c.Language ≠ fd.Language :=
      fun c hc => by rw [hg2.2 c hc, hL]; decide
    have n3 : ∀ c ∈ (javaBranch cp fs).cands, c.Language ≠ fd.Language :=
      fun c hc => by rw [hg3.2 c hc, hL]; decide
    have n4 : ∀ c ∈ (nodeBranch cp fs).cands, c.Language ≠ fd.Language :=
      fun c hc => by rw [hg4.2 c hc, hL]; decide
    have n6 : ∀ c ∈ (rustBranch cp fs).cands, c.Language ≠ fd.Language :=
      fun c hc => by rw [hg6.2 c hc, hL]; decide
    exact ⟨hm.trans (exists_six ht (Or.inr n1) (Or.inr n2) (Or.inr n3) (Or.inr n4)
        (Or.inl rfl) (Or.inr n6) (Or.inr (Or.inr (Or.inr (Or.inr (Or.inl rfl)))))).symm,
      ho.trans (exists_six ht (Or.inr n1) (Or.inr n2) (Or.inr n3) (Or.inr n4)
        (Or.inl rfl) (Or.inr n6) (Or.inr (Or.inr (Or.inr (Or.inr (Or.inl rfl)))))).symm⟩
  · obtain ⟨hL, hm, ho⟩ := hg6.1 fd h
    have ht : ∀ c ∈ (rustBranch cp fs).cands, c.Language = fd.Language :=
      fun c hc => (hg6.2 c hc).trans hL.symm
    have n1 : ∀ c ∈ (goBranch cp fs goOk goClass).cands, c.Language ≠ fd.Language :=
      fun c hc => by rw [hg1.2 c hc, hL]; decide
    have n2 : ∀ c ∈ (pythonBranch cp fs pyOk).cands, c.Language ≠ fd.Language :=
      fun c hc => by rw [hg2.2 c hc, hL]; decide
    have n3 : ∀ c ∈ (javaBranch cp fs).cands, c.Language ≠ fd.Language :=
      fun c hc => by rw [hg3.2 c hc, hL]; decide
    have n4 : ∀ c ∈ (nodeBranch cp fs).cands, c.Language ≠ fd.Language :=
      fun c hc => by rw [hg4.2 c hc, hL]; decide
    have n5 : ∀ c ∈ (dotnetBranch cp fs).cands, c.Language ≠ fd.Language :=
      fun c hc => by rw [hg5.2 c hc, hL]; decide
    exact ⟨hm.trans (exists_six ht (Or.inr n1) (Or.inr n2) (Or.inr n3) (Or.inr n4)
        (Or.inr n5) (Or.inl rfl) (Or.inr (Or.inr (Or.inr (Or.inr (Or.inr rfl)))))).symm,
      ho.trans (exists_six ht (Or.inr n1) (Or.inr n2) (Or.inr n3) (Or.inr n4)
        (Or.inr n5) (Or.inl rfl) (Or.inr (Or.inr (Or.inr (Or.inr (Or.inr rfl)))))).symm⟩

/-- Claim C9: the rendered telemetry configuration text is a function of
(serviceName, mode) alone: each of the four modes has one fixed template
(shown by the four template equations), the togglespec renderer ignores its
framework argument, and its text coincides with the template selected by its
derived mode; both renderers are pure functions of their string arguments. -/
theorem claim_C9 (s : String) :
    GenerateToggleSpecYAML s "metrics" = toggleSpecMetricsTemplate s ∧
    GenerateToggleSpecYAML s "traces" = toggleSpecTracesTemplate s ∧
    GenerateToggleSpecYAML s "both" = toggleSpecBothTemplate s ∧
    GenerateToggleSpecYAML s "none" = toggleSpecNoneTemplate s ∧
    ∀ fw1 fw2 : String, ∀ hm ho : Bool,
      GenerateToggleSpec s fw1 hm ho = GenerateToggleSpec s fw2 hm ho ∧
      (GenerateToggleSpec s fw1 hm ho).2 =
        GenerateToggleSpecYAML s (GenerateToggleSpec s fw1 hm ho).1 := by
  refine ⟨rfl, rfl, rfl, rfl, fun fw1 fw2 hm ho => ⟨rfl, ?_⟩⟩
  cases hm <;> cases ho <;> rfl

/-- Claim C6: plan determinism: two calls of Generate with identical language,
service, mode and candidate arguments produce identical plans, hence
byte-identical edit lists in the same order. -/
theorem claim_C6 (fw1 fw2 s1 s2 m1 m2 : String) (c1 c2 : List Candidate)
    (hfw : fw1 = fw2) (hs : s1 = s2) (hm : m1 = m2) (hc : c1 = c2) :
    Generate fw1 s1 m1 c1 = Generate fw2 s2 m2 c2 ∧
    (Generate fw1 s1 m1 c1).map InstrumentationPlan.Changes =
      (Generate fw2 s2 m2 c2).map InstrumentationPlan.Changes := by
  subst hfw; subst hs; subst hm; subst hc; exact ⟨rfl, rfl⟩

theorem claim_C6_witness :
    Generate "Go" "svc" "both" [] = Generate "Go" "svc" "both" [] ∧
    (Generate "Go" "svc" "both" []).map InstrumentationPlan.Changes =
      (Generate "Go" "svc" "both" []).map InstrumentationPlan.Changes :=
  claim_C6 "Go" "Go" "svc" "svc" "both" "both" [] [] rfl rfl rfl rfl

/-- Claim C3 counterexample: with language Node.js, Generate under mode "none"
returns an error instead of a valid empty plan, refuting "never an error,
regardless of which language is supplied". -/
theorem claim_C3_counterexample :
    Generate "Node.js" "svc" "none" [] =
      Except.error "Node.js instrumentation not implemented yet" := rfl

/-- Claim C3 as amended: for the implemented generators (Go, Python, Java),
mode "none" yields a valid plan with an empty edit list and never an error,
for every service name and candidate list; Node.js (and any unrecognized
language) errors for every mode, "none" included. -/
theorem claim_C3_amended (service : String) (cands : List Candidate) :
    (∃ p, Generate "Go" service "none" cands = Except.ok p ∧ p.Changes = []) ∧
    (∃ p, Generate "Python" service "none" cands = Except.ok p ∧ p.Changes = []) ∧
    (∃ p, Generate "Java" service "none" cands = Except.ok p ∧ p.Changes = []) :=
  ⟨⟨_, rfl, rfl⟩, ⟨_, rfl, rfl⟩, ⟨_, rfl, rfl⟩⟩

/-- Claim C1 (code bug): the edit applier of CreateInstrumentationPR never
performs anchored insertion.  On a checkout whose main.go contains the anchor
line, an action="modify" edit carrying that anchor is silently dropped (the
tree is returned unchanged), and an action="append" edit carrying an anchor is
appended at end of file rather than inserted after the anchor line. -/
theorem claim_C1 :
    (generateGoMiddleware "svc").Action = "modify" ∧
    strContains mainGoContent (generateGoMiddleware "svc").LineAfter = true ∧
    applyChanges fsMainGo [generateGoMiddleware "svc"] = Except.ok fsMainGo ∧
    strContains mainGoContent (generateGoTracerInit "svc").LineAfter = true ∧
    applyChanges fsMainGo [generateGoTracerInit "svc"] =
      Except.ok ⟨[("main.go", mainGoContent ++ (generateGoTracerInit "svc").Content)]⟩ :=
  ⟨rfl, rfl, rfl, rfl, rfl⟩

/-- Claim C4 (code bug): applying the both-mode Go plan to a clean Go checkout
does not produce an instrumented tree to re-scan: the apply step itself fails,
because the plan's create edit targets metrics/metrics.go while os.WriteFile
cannot create the missing parent directory (and the two modify edits wiring
tracing middleware and the metrics endpoint were dropped before that point). -/
theorem claim_C4 :
    ∃ p, Generate "Go" "svc" "both" [] = Except.ok p ∧
      applyChanges fsCleanGo p.Changes =
        Except.error "open metrics/metrics.go: no such file or directory" :=
  ⟨_, rfl, rfl⟩

/-- Claim C2 counterexample: scanned with the always-grep Java detection, a
source file whose only reference to the instrumentation library is the import
statement (no call of any kind in the file) appears in the file set of a
metrics DetectionCandidate: candidacy did not require a usage pass. -/
theorem claim_C2_counterexample :
    ∃ c ∈ (ScanRepoM "/tmp/repo1" fsJavaImportOnly true (fun _ => (false, false))
        true).Candidates,
      c.Kind = "metrics" ∧ "/tmp/repo1/src/Foo.java" ∈ c.Files := by decide

/-- Claim C7 counterexample: a candidate produced by the grep-based detection
path carries the scratch checkout prefix /tmp/repo1/ in its file paths; they
are not normalized to be relative to the repository root. -/
theorem claim_C7_counterexample :
    ∃ c ∈ (ScanRepoM "/tmp/repo1" fsJavaImportOnly true (fun _ => (false, false))
        true).Candidates,
      ∃ f ∈ c.Files, strHasPref f "/tmp/repo1/" = true := by decide

/-- Claim C8 counterexample: a file lying under a vendored dependency tree
(vendor/) appears in a DetectionCandidate's file set: the grep-based detection
path does not skip vendor, .git, __pycache__, venv or .venv. -/
theorem claim_C8_counterexample :
    ∃ c ∈ (ScanRepoM "/tmp/repo1" fsJavaVendored true (fun _ => (false, false))
        true).Candidates,
      "/tmp/repo1/vendor/metrics/Reg.java" ∈ c.Files := by decide

theorem claim_C5_witness :
    (({ Language := "Java", Framework := "Java", HasMetrics := true, HasOTel := false,
        ServiceName := "java-service" } : FrameworkDetection).HasMetrics = true ↔
      ∃ c ∈ (ScanRepoM "/tmp/repo1" fsJavaImportOnly true (fun _ => (false, false))
          true).Candidates,
        c.Language = "Java" ∧ c.Kind = "metrics" ∧ c.Files ≠ []) ∧
    (({ Language := "Java", Framework := "Java", HasMetrics := true, HasOTel := false,
        ServiceName := "java-service" } : FrameworkDetection).HasOTel = true ↔
      ∃ c ∈ (ScanRepoM "/tmp/repo1" fsJavaImportOnly true (fun _ => (false, false))
          true).Candidates,
        c.Language = "Java" ∧ c.Kind = "otel" ∧ c.Files ≠ []) :=
  claim_C5 "/tmp/repo1" fsJavaImportOnly true (fun _ => (false, false)) true
    { Language := "Java", Framework := "Java", HasMetrics := true, HasOTel := false,
      ServiceName := "java-service" } (by decide)

theorem find?_map_replace (files : List (String × String)) (p c : String)
    (h : files.any (fun pc => pc.1 == p) = true) :
    (files.map (fun pc => if pc.1 == p then (p, c) else pc)).find?
      (fun pc => pc.1 == p) = some (p, c) := by
  induction files with
  | nil => simp at h
  | cons pc rest ih =>
    by_cases hpc : (pc.1 == p) = true
    · rw [List.map_cons, if_pos hpc]
      simp only [List.find?_cons, beq_self_eq_true]
    · have hf : (pc.1 == p) = false := by
        revert hpc; cases pc.1 == p <;> simp
      rw [List.any_cons] at h
      rcases Bool.or_eq_true_iff.mp h with h1 | h2
      · exact absurd h1 hpc
      · rw [List.map_cons, if_neg hpc]
        simp only [List.find?_cons, hf]
        exact ih h2
  
theorem find?_append_absent (files : List (String × String)) (p c : String)
    (h : files.any (fun pc => pc.1 == p) = false) :
    (files ++ [(p, c)]).find? (fun pc => pc.1 == p) = some (p, c) := by
  induction files with
  | nil =>
    rw [List.nil_append]
    simp only [List.find?_cons, beq_self_eq_true]
  | cons pc rest ih =>
    rw [List.any_cons, Bool.or_eq_false_iff] at h
    rw [List.cons_append]
    simp only [List.find?_cons, h.1]
    exact ih h.2
  
theorem fsLookup_fsSet_self (fs : RepoFS) (p c : String) :
    fsLookup (fsSet fs p c) p = some c := by
  unfold fsLookup fsSet
  by_cases h : fs.files.any (fun pc => pc.1 == p) = true
  · rw [if_pos h]
    show ((fs.files.map (fun pc => if pc.1 == p then (p, c) else pc)).find?
      (fun pc => pc.1 == p)).map (fun pc => pc.2) = some c
    rw [find?_map_replace fs.files p c h]
    rfl
  · have h2 : fs.files.any (fun pc => pc.1 == p) = false := by
      revert h; cases fs.files.any (fun pc => pc.1 == p) <;> simp
    rw [if_neg h]
    show ((fs.files ++ [(p, c)]).find? (fun pc => pc.1 == p)).map (fun pc => pc.2) = some c
    rw [find?_append_absent fs.files p c h2]
    rfl
  
theorem dirOfFileExists_of_mem {fs : RepoFS} {p old : String}
    (h : fsLookup fs p = some old) : dirOfFileExists fs p = true := by
  unfold fsLookup at h
  cases hf : fs.files.find? (fun pc => pc.1 == p) with
  | none => rw [hf] at h; cases h
  | some pc =>
    have hm : pc ∈ fs.files := List.mem_of_find?_eq_some hf
    have hp : pc.1 = p := by simpa using List.find?_some hf
    have hpre : (dirParts p).isPrefixOf (strSplitChar pc.1 '/') = true := by
      rw [hp, List.isPrefixOf_iff_prefix]
      exact List.dropLast_prefix _
    simp only [dirOfFileExists, Bool.or_eq_true, List.any_eq_true]
    exact Or.inr ⟨pc, hm, hpre⟩

/-- Claim C10: applying an action="create" edit whose path already exists in
the working tree is not rejected and does not fail: os.WriteFile truncates,
so the apply step succeeds and the path's entire previous content is silently
replaced by the edit's content. -/
theorem claim_C10 (fs : RepoFS) (ch : FileChange) (old : String)
    (ha : ch.Action = "create") (h : fsLookup fs ch.Path = some old) :
    applyChange fs ch = Except.ok (fsSet fs ch.Path ch.Content) ∧
    fsLookup (fsSet fs ch.Path ch.Content) ch.Path = some ch.Content := by
  have hd : dirOfFileExists fs ch.Path = true := dirOfFileExists_of_mem h
  have h1 : (("create" : String) == "append") = false := rfl
  have h2 : (("create" : String) == "create") = true := rfl
  exact ⟨by simp [applyChange, ha, h1, h2, hd], fsLookup_fsSet_self fs ch.Path ch.Content⟩

theorem claim_C10_witness :
    applyChange fsMainGo { Path := "main.go", Content := "x", Action := "create" } =
      Except.ok (fsSet fsMainGo "main.go" "x") ∧
    fsLookup (fsSet fsMainGo "main.go" "x") "main.go" = some "x" :=
  claim_C10 fsMainGo { Path := "main.go", Content := "x", Action := "create" }
    mainGoContent rfl rfl

theorem map_trim_append (cp : String) (l : List (String × String)) :
    l.map (fun pc => trimPrefixStr (cp ++ "/" ++ pc.1) (cp ++ "/")) =
      l.map (fun pc => pc.1) :=
  List.map_eq_map_iff.mpr (fun pc _ => trimPrefixStr_append (cp ++ "/") pc.1)

theorem map_eq_self_of {α : Type} (l : List α) (f : α → α) (h : ∀ a ∈ l, f a = a) :
    l.map f = l := by
  induction l with
  | nil => rfl
  | cons a r ih =>
    rw [List.map_cons, h a (List.mem_cons_self a r),
      ih (fun x hx => h x (List.mem_cons_of_mem a hx))]

theorem trimPrefixStr_of_no_pref {s p : String} (h : strHasPref s p = false) :
    trimPrefixStr s p = s := by
  unfold trimPrefixStr
  have hb : p.data.isPrefixOf s.data = false := h
  rw [if_neg (by rw [hb]; exact Bool.false_ne_true)]

theorem analyzeGoRepoM_files {goClass : String → Bool × Bool} {cp : String}
    {fs : RepoFS} {c : Candidate} (hc : c ∈ AnalyzeGoRepoM goClass cp fs) :
    c.Files.Nodup ∧
    ∀ f ∈ c.Files, ∃ pc ∈ fs.files, f = pc.1 ∧ visitedGo pc.1 = true := by
  unfold AnalyzeGoRepoM at hc
  split at hc
  · cases hc
  · rcases mem_mkKindCandidates.mp hc with ⟨hne, rfl⟩ | ⟨hne, rfl⟩ <;>
    · refine ⟨nodup_dedupKeep _, ?_⟩
      intro f hf
      rw [mem_dedupKeep, map_trim_append] at hf
      obtain ⟨pc, hpc, rfl⟩ := List.mem_map.mp hf
      have h2 := List.mem_filter.mp hpc
      have h3 := List.mem_filter.mp h2.1
      exact ⟨pc, h3.1, rfl, (Bool.and_eq_true_iff.mp h3.2).1⟩

theorem analyzePythonRepoM_files {cp : String} {fs : RepoFS} {c : Candidate}
    (hc : c ∈ AnalyzePythonRepoM cp fs) :
    c.Files.Nodup ∧
    ∀ f ∈ c.Files, ∃ pc ∈ fs.files, f = pc.1 ∧ visitedPy pc.1 = true ∧
      (c.Kind = "metrics" → pyPromImport pc.2 = true ∧ pyPromUsage pc.2 = true) ∧
      (c.Kind = "otel" → pyOtelImport pc.2 = true ∧ pyOtelUsage pc.2 = true) := by
  unfold AnalyzePythonRepoM at hc
  split at hc
  · cases hc
  · rcases mem_mkKindCandidates.mp hc with ⟨hne, rfl⟩ | ⟨hne, rfl⟩
    · refine ⟨nodup_dedupKeep _, ?_⟩
      intro f hf
      rw [mem_dedupKeep, map_trim_append] at hf
      obtain ⟨pc, hpc, rfl⟩ := List.mem_map.mp hf
      have h2 := List.mem_filter.mp hpc
      have h3 := List.mem_filter.mp h2.1
      have hp2 := Bool.and_eq_true_iff.mp h2.2
      have hp1 := Bool.and_eq_true_iff.mp h3.2
      exact ⟨pc, h3.1, rfl, hp1.1, fun _ => ⟨hp2.1, hp2.2⟩,
        fun hk => absurd hk (show ¬("metrics" : String) = "otel" by decide)⟩
    · refine ⟨nodup_dedupKeep _, ?_⟩
      intro f hf
      rw [mem_dedupKeep, map_trim_append] at hf
      obtain ⟨pc, hpc, rfl⟩ := List.mem_map.mp hf
      have h2 := List.mem_filter.mp hpc
      have h3 := List.mem_filter.mp h2.1
      have hp2 := Bool.and_eq_true_iff.mp h2.2
      have hp1 := Bool.and_eq_true_iff.mp h3.2
      exact ⟨pc, h3.1, rfl, hp1.1, fun hk => absurd hk (show ¬("otel" : String) = "metrics" by decide),
        fun _ => ⟨hp2.1, hp2.2⟩⟩

/-- Claim C2 as amended: the two-pass rule (import and usage both required)
holds for the structural Python analyzer: every file of every candidate it
emits has the matching import pass and an allowlisted usage call; the
grep-based detection path used for Java, Node.js, .NET and Rust (and as the
Go/Python fallback) is single-pass, so an import-only file can appear there,
as the counterexample shows. -/
theorem claim_C2_amended (cp : String) (fs : RepoFS) :
    ∀ c ∈ AnalyzePythonRepoM cp fs, ∀ f ∈ c.Files,
      ∃ pc ∈ fs.files, f = pc.1 ∧
        (c.Kind = "metrics" → pyPromImport pc.2 = true ∧ pyPromUsage pc.2 = true) ∧
        (c.Kind = "otel" → pyOtelImport pc.2 = true ∧ pyOtelUsage pc.2 = true) := by
  intro c hc f hf
  obtain ⟨-, h⟩ := analyzePythonRepoM_files hc
  obtain ⟨pc, hm, he, -, hk1, hk2⟩ := h f hf
  exact ⟨pc, hm, he, hk1, hk2⟩

/-- Claim C8 as amended: the structural analyzers do skip version-control
metadata, vendored trees, build caches and virtual environments entirely (no
candidate file of AnalyzeGoRepo lies under vendor or .git, none of
AnalyzePythonRepo lies under venv, vendor, __pycache__, .git or .venv); the
grep-based detection path does not skip them, as the counterexample shows. -/
theorem claim_C8_amended (goClass : String → Bool × Bool) (cp : String) (fs : RepoFS) :
    (∀ c ∈ AnalyzeGoRepoM goClass cp fs, ∀ f ∈ c.Files, visitedGo f = true) ∧
    (∀ c ∈ AnalyzePythonRepoM cp fs, ∀ f ∈ c.Files, visitedPy f = true) := by
  constructor
  · intro c hc f hf
    obtain ⟨-, hmem⟩ := analyzeGoRepoM_files hc
    obtain ⟨pc, -, rfl, hv⟩ := hmem f hf
    exact hv
  · intro c hc f hf
    obtain ⟨-, hmem⟩ := analyzePythonRepoM_files hc
    obtain ⟨pc, -, rfl, hv, -, -⟩ := hmem f hf
    exact hv

theorem nodup_mkKindCandidates {lang fw svc : String} {mp op mf of : List String}
    (hm : mf.Nodup) (ho : of.Nodup) :
    ∀ c ∈ mkKindCandidates lang fw svc mp op mf of, c.Files.Nodup := by
  intro c hc
  rcases mem_mkKindCandidates.mp hc with ⟨-, rfl⟩ | ⟨-, rfl⟩ <;> assumption

theorem nodup_detectMetrics (cp : String) (fs : RepoFS) (l : String) :
    (detectMetrics cp fs l).Nodup := by
  unfold detectMetrics
  split
  · exact List.nodup_nil
  · exact nodup_dedupKeep _

theorem nodup_detectOTel (cp : String) (fs : RepoFS) (l : String) :
    (detectOTel cp fs l).Nodup := by
  unfold detectOTel
  split
  · exact List.nodup_nil
  · exact nodup_dedupKeep _

theorem goBranch_c7 {cp : String} {fs : RepoFS} {goOk : Bool}
    {goClass : String → Bool × Bool} (hclean : CleanFS cp fs) :
    ∀ c ∈ (goBranch cp fs goOk goClass).cands,
      c.Files.Nodup ∧ (goOk = true → ∀ f ∈ c.Files, ∃ pc ∈ fs.files, f = pc.1) := by
  intro c hc
  unfold goBranch at hc
  by_cases hdet : detectGo fs = true
  · rw [if_pos hdet] at hc
    by_cases hok : goOk = true
    · rw [if_pos hok] at hc
      unfold astAggregate at hc
      obtain ⟨c0, hc0, rfl⟩ := List.mem_map.mp hc
      obtain ⟨hnd, hmem⟩ := analyzeGoRepoM_files hc0
      have hid : c0.Files.map (fun f => trimPrefixStr f (cp ++ "/")) = c0.Files := by
        apply map_eq_self_of
        intro f hf
        obtain ⟨pc, hpc, rfl, -⟩ := hmem f hf
        exact trimPrefixStr_of_no_pref (hclean pc hpc)
      constructor
      · show (c0.Files.map (fun f => trimPrefixStr f (cp ++ "/"))).Nodup
        rw [hid]; exact hnd
      · intro _ f hf
        have hf2 : f ∈ c0.Files := by rw [← hid]; exact hf
        obtain ⟨pc, hpc, rfl, -⟩ := hmem f hf2
        exact ⟨pc, hpc, rfl⟩
    · rw [if_neg hok] at hc
      refine ⟨nodup_mkKindCandidates (nodup_detectMetrics cp fs "Go")
        (nodup_detectOTel cp fs "Go") c hc, ?_⟩
      intro hgo
      exact absurd hgo hok
  · rw [if_neg hdet] at hc
    exact absurd hc (List.not_mem_nil c)

theorem pythonBranch_c7 {cp : String} {fs : RepoFS} {pyOk : Bool}
    (hclean : CleanFS cp fs) :
    ∀ c ∈ (pythonBranch cp fs pyOk).cands,
      c.Files.Nodup ∧ (pyOk = true → ∀ f ∈ c.Files, ∃ pc ∈ fs.files, f = pc.1) := by
  intro c hc
  unfold pythonBranch at hc
  by_cases hdet : detectPython fs = true
  · rw [if_pos hdet] at hc
    by_cases hok : pyOk = true
    · rw [if_pos hok] at hc
      unfold astAggregate at hc
      obtain ⟨c0, hc0, rfl⟩ := List.mem_map.mp hc
      obtain ⟨hnd, hmem⟩ := analyzePythonRepoM_files hc0
      have hid : c0.Files.map (fun f => trimPrefixStr f (cp ++ "/")) = c0.Files := by
        apply map_eq_self_of
        intro f hf
        obtain ⟨pc, hpc, rfl, -⟩ := hmem f hf
        exact trimPrefixStr_of_no_pref (hclean pc hpc)
      constructor
      · show (c0.Files.map (fun f => trimPrefixStr f (cp ++ "/"))).Nodup
        rw [hid]; exact hnd
      · intro _ f hf
        have hf2 : f ∈ c0.Files := by rw [← hid]; exact hf
        obtain ⟨pc, hpc, rfl, -⟩ := hmem f hf2
        exact ⟨pc, hpc, rfl⟩
    · rw [if_neg hok] at hc
      refine ⟨nodup_mkKindCandidates (nodup_detectMetrics cp fs "Python")
        (nodup_detectOTel cp fs "Python") c hc, ?_⟩
      intro hpy
      exact absurd hpy hok
  · rw [if_neg hdet] at hc
    exact absurd hc (List.not_mem_nil c)

theorem javaBranch_nodup {cp : String} {fs : RepoFS} :
    ∀ c ∈ (javaBranch cp fs).cands, c.Files.Nodup := by
  intro c hc
  unfold javaBranch at hc
  by_cases hdet : detectJava fs = true
  · rw [if_pos hdet] at hc
    exact nodup_mkKindCandidates (nodup_detectMetrics cp fs "Java")
      (nodup_detectOTel cp fs "Java") c hc
  · rw [if_neg hdet] at hc
    exact absurd hc (List.not_mem_nil c)

theorem nodeBranch_nodup {cp : String} {fs : RepoFS} :
    ∀ c ∈ (nodeBranch cp fs).cands, c.Files.Nodup := by
  intro c hc
  unfold nodeBranch at hc
  by_cases hdet : detectNode fs = true
  · rw [if_pos hdet] at hc
    exact nodup_mkKindCandidates (nodup_detectMetrics cp fs "Node.js")
      (nodup_detectOTel cp fs "Node.js") c hc
  · rw [if_neg hdet] at hc
    exact absurd hc (List.not_mem_nil c)

theorem dotnetBranch_nodup {cp : String} {fs : RepoFS} :
    ∀ c ∈ (dotnetBranch cp fs).cands, c.Files.Nodup := by
  intro c hc
  unfold dotnetBranch at hc
  by_cases hdet : detectDotnet fs = true
  · rw [if_pos hdet] at hc
    exact nodup_mkKindCandidates (nodup_detectMetrics cp fs ".NET")
      (nodup_detectOTel cp fs ".NET") c hc
  · rw [if_neg hdet] at hc
    exact absurd hc (List.not_mem_nil c)

theorem rustBranch_nodup {cp : String} {fs : RepoFS} :
    ∀ c ∈ (rustBranch cp fs).cands, c.Files.Nodup := by
  intro c hc
  unfold rustBranch at hc
  by_cases hdet : detectRust fs = true
  · rw [if_pos hdet] at hc
    exact nodup_mkKindCandidates (nodup_detectMetrics cp fs "Rust")
      (nodup_detectOTel cp fs "Rust") c hc
  · rw [if_neg hdet] at hc
    exact absurd hc (List.not_mem_nil c)

/-- Claim C7 as amended: every DetectionCandidate's file list is free of
duplicates on all detection paths; normalization to repo-root-relative paths
holds only for the candidates of the structural Go and Python analyzers
(their files are exactly checkout keys), while grep-path candidates keep the
absolute scratch path, as the counterexample shows. -/
theorem claim_C7_amended (cp : String) (fs : RepoFS) (goOk : Bool)
    (goClass : String → Bool × Bool) (pyOk : Bool) (hclean : CleanFS cp fs) :
    ∀ c ∈ (ScanRepoM cp fs goOk goClass pyOk).Candidates,
      c.Files.Nodup ∧
      (((goOk = true ∧ c.Language = "Go") ∨ (pyOk = true ∧ c.Language = "Python")) →
        ∀ f ∈ c.Files, ∃ pc ∈ fs.files, f = pc.1) := by
  intro c hc
  simp only [ScanRepoM, List.mem_append] at hc
  rcases hc with ((((hc | hc) | hc) | hc) | hc) | hc
  · obtain ⟨hnd, hmem⟩ := goBranch_c7 hclean c hc
    refine ⟨hnd, ?_⟩
    rintro (⟨hok, -⟩ | ⟨-, hlang⟩)
    · exact hmem hok
    · have hl := (goBranch_good cp fs goOk goClass).2 c hc
      rw [hl] at hlang
      exact absurd hlang (show ¬("Go" : String) = "Python" by decide)
  · obtain ⟨hnd, hmem⟩ := pythonBranch_c7 hclean c hc
    refine ⟨hnd, ?_⟩
    rintro (⟨-, hlang⟩ | ⟨hok, -⟩)
    · have hl := (pythonBranch_good cp fs pyOk).2 c hc
      rw [hl] at hlang
      exact absurd hlang (show ¬("Python" : String) = "Go" by decide)
    · exact hmem hok
  · refine ⟨javaBranch_nodup c hc, ?_⟩
    have hl := (javaBranch_good cp fs).2 c hc
    rintro (⟨-, hlang⟩ | ⟨-, hlang⟩) <;> rw [hl] at hlang
    · exact absurd hlang (show ¬("Java" : String) = "Go" by decide)
    · exact absurd hlang (show ¬("Java" : String) = "Python" by decide)
  · refine ⟨nodeBranch_nodup c hc, ?_⟩
    have hl := (nodeBranch_good cp fs).2 c hc
    rintro (⟨-, hlang⟩ | ⟨-, hlang⟩) <;> rw [hl] at hlang
    · exact absurd hlang (show ¬("Node.js" : String) = "Go" by decide)
    · exact absurd hlang (show ¬("Node.js" : String) = "Python" by decide)
  · refine ⟨dotnetBranch_nodup c hc, ?_⟩
    have hl := (dotnetBranch_good cp fs).2 c hc
    rintro (⟨-, hlang⟩ | ⟨-, hlang⟩) <;> rw [hl] at hlang
    · exact absurd hlang (show ¬(".NET" : String) = "Go" by decide)
    · exact absurd hlang (show ¬(".NET" : String) = "Python" by decide)
  · refine ⟨rustBranch_nodup c hc, ?_⟩
    have hl := (rustBranch_good cp fs).2 c hc
    rintro (⟨-, hlang⟩ | ⟨-, hlang⟩) <;> rw [hl] at hlang
    · exact absurd hlang (show ¬("Rust" : String) = "Go" by decide)
    · exact absurd hlang (show ¬("Rust" : String) = "Python" by decide)

theorem claim_C2_amended_witness :
    ∃ pc ∈ fsPyUsage.files, "app.py" = pc.1 ∧
      (("metrics" : String) = "metrics" →
        pyPromImport pc.2 = true ∧ pyPromUsage pc.2 = true) ∧
      (("metrics" : String) = "otel" →
        pyOtelImport pc.2 = true ∧ pyOtelUsage pc.2 = true) :=
  claim_C2_amended "/tmp/repo1" fsPyUsage
    { Language := "Python", Framework := "Python", Kind := "metrics",
      Patterns := ["prometheus_client", "start_http_server", "Counter", "Histogram"],
      Files := ["app.py"], ServiceName := "python-service" }
    (by decide) "app.py" (by decide)

theorem claim_C8_amended_witness : visitedGo "metrics/metrics.go" = true :=
  (claim_C8_amended goClassExample "/tmp/repo1" fsGoAstExample).1
    { Language := "Go", Framework := "Go", Kind := "metrics",
      Patterns := ["prometheus.MustRegister", "promhttp.Handler", "NewCounterVec"],
      Files := ["metrics/metrics.go"], ServiceName := "go-service" }
    (by decide) "metrics/metrics.go" (by decide)

theorem claim_C7_amended_witness :
    (["app.py"] : List String).Nodup ∧
    (((true = true ∧ ("Python" : String) = "Go") ∨
        (true = true ∧ ("Python" : String) = "Python")) →
      ∀ f ∈ (["app.py"] : List String), ∃ pc ∈ fsPyUsage.files, f = pc.1) :=
  claim_C7_amended "/tmp/repo1" fsPyUsage true (fun _ => (false, false)) true
    (by unfold CleanFS; decide)
    { Language := "Python", Framework := "Python", Kind := "metrics",
      Patterns := ["prometheus_client", "start_http_server", "Counter", "Histogram"],
      Files := ["app.py"], ServiceName := "python-service" }
    (by decide)
